import Mathlib

/-!
Verification of `enrich_bibtex.py` (rjoberon/bibliography_tools).

A BibTeX entry, as produced by the parser, is a Python dict mapping field
names (including the pseudo-fields ID and ENTRYTYPE) to string values.
We embed such dicts as association lists with unique keys; `dictFind?`,
`dictSet` and `dictHasKey` model `d[k]` / `d.get(k)`, `d[k] = v` and
`k in d` on dicts whose keys are unique (Python dict semantics: assignment
replaces the value of an existing key in place, otherwise appends).
-/

/-- A parsed BibTeX entry: a dict from field names to string values. -/
abbrev Entry := List (String × String)

/-- Models `d.get(k)` / `d[k]` on a Python dict: value of the first pair with the given key. -/
def dictFind? {α : Type} (d : List (String × α)) (k : String) : Option α :=
  match d with
  | [] => none
  | p :: rest => if p.1 = k then some p.2 else dictFind? rest k

/-- Models `k in d` on a Python dict. -/
def dictHasKey {α : Type} (d : List (String × α)) (k : String) : Bool :=
  d.any (fun p => p.1 = k)

/-- Models `d[k] = v` on a Python dict: replace the value at the first
occurrence of the key, otherwise append the pair. -/
def dictSet (d : List (String × String)) (k v : String) : List (String × String) :=
  match d with
  | [] => [(k, v)]
  | p :: rest => if p.1 = k then (k, v) :: rest else p :: dictSet rest k v

/-- Models `entry["ID"]`. Entries produced by the BibTeX parser always carry
an ID field; absent IDs are defaulted to the empty string. -/
def entryID (e : Entry) : String := (dictFind? e "ID").getD ""

/-- The in-memory BibTeX database (`bibtexparser` BibDatabase): the entry
list together with the key-to-entry index `entries_dict`, embedded as an
association list in insertion order. The two are kept as separate fields
because `filter_keys` mutates them independently. -/
structure Bib where
  entries : List Entry
  entries_dict : List (String × Entry)
deriving DecidableEq

/-- A Crossref result item, restricted to the fields the program reads.
Per the service response contract (each item exposes a title — a list of
strings in the Crossref schema — and a DOI string), `item.get("title")`
is modelled as the `title` list and `item.get("DOI")` as the `DOI` string. -/
structure Item where
  title : List String
  DOI : String
deriving DecidableEq

/-- Models Python `str.lower()` (per-character lowercasing; adequate for the
ASCII DOI/title strings handled here). -/
def pyLower (s : String) : String := String.mk (s.data.map Char.toLower)

/-- Models Python `str.casefold()` (per-character lowercasing; Unicode full
case folding is not needed for the comparisons made here). -/
def pyCasefold (s : String) : String := String.mk (s.data.map Char.toLower)

/-- Models the character class matched by the regex `\s` (ASCII whitespace). -/
def isPySpace (c : Char) : Bool :=
  c = ' ' || c = '\t' || c = '\n' || c = '\x0d' || c = '\x0c' || c = '\x0b'

/-- Models `re_newline.sub(" ", s)` for `re_newline = re.compile(r"\s*\n\s*")`,
scanning left to right for the leftmost match: at the start of a maximal
whitespace run that contains a line break, the greedy pattern matches the
entire run (the leading `\s*` backtracks to the last `\n` of the run and the
trailing `\s*` then consumes the rest of the run), which is replaced by a
single space; scanning resumes after the run. -/
def re_newline_sub : List Char → List Char
  | [] => []
  | c :: cs =>
    if isPySpace c && ((c :: cs).takeWhile isPySpace).contains '\n' then
      ' ' :: re_newline_sub (cs.dropWhile isPySpace)
    else
      c :: re_newline_sub cs
termination_by l => l.length
decreasing_by
  · simp only [List.length_cons]
    exact Nat.lt_succ_of_le (List.dropWhile_suffix isPySpace).sublist.length_le
  · simp [Nat.lt_succ_self]

/-- The string-level substitution `re_newline.sub(" ", s)`. -/
def cleanValue (s : String) : String := String.mk (re_newline_sub s.data)

/-- The fixed field set whose line breaks `clean_fields` removes. -/
def cleanedFields : List String :=
  ["title", "author", "editor", "journal", "booktitle", "series"]

/-- One iteration of the loop body of `clean_fields`:
`if field in record: record[field] = re_newline.sub(" ", record[field])`. -/
def cleanField (r : Entry) (field : String) : Entry :=
  match dictFind? r field with
  | some v => dictSet r field (cleanValue v)
  | none => r

/-- `clean_fields(record)`: removes line breaks from the fixed field set. -/
def clean_fields (record : Entry) : Entry :=
  cleanedFields.foldl cleanField record

/-- `get_keys(f)`: `None` when no key file was supplied, otherwise the
stripped lines of the file. -/
def get_keys (f : Option (List String)) : Option (List String) :=
  match f with
  | some lines => some (lines.map String.trim)
  | none => none

/-- `check_keys(bib, keys)`: the requested keys not contained in
`bib.entries_dict`, in request order. -/
def check_keys (bib : Bib) (keys : List String) : List String :=
  keys.filter (fun k => !(dictHasKey bib.entries_dict k))

/-- `filter_keys(bib, keys)`: rebuilds `bib.entries`, keeping the entries
whose ID is in `keys`, and then deletes from `bib.entries_dict` every key
that is in `keys`. -/
def filter_keys (bib : Bib) (keys : List String) : Bib :=
  { entries := bib.entries.filter (fun entry => keys.contains (entryID entry))
    entries_dict := bib.entries_dict.filter (fun p => !(keys.contains p.1)) }

/-- Models `fields.split(',')` (Python `str.split` on a single-character
separator: no merging of adjacent separators, empty string gives one empty
field). -/
def splitCommaList : List Char → List (List Char)
  | [] => [[]]
  | c :: cs =>
    if c = ',' then
      [] :: splitCommaList cs
    else
      match splitCommaList cs with
      | [] => [[c]]
      | w :: ws => (c :: w) :: ws

/-- `fields.split(',')` at the string level. -/
def pySplit (s : String) : List String := (splitCommaList s.data).map String.mk

/-- `write_tsv(bib, f, fields)`: the rows written to the TSV file, each row a
list of cells. `csv.DictWriter(f, fields.split(','), extrasaction='ignore')`
first writes the header row of field names, then for each entry one row with,
for each requested field in order, the entry's value or the empty string when
the field is absent (`restval` default); fields of the entry not requested
are ignored. -/
def write_tsv (bib : Bib) (fields : String) : List (List String) :=
  pySplit fields ::
    bib.entries.map (fun entry => (pySplit fields).map (fun f => (dictFind? entry f).getD ""))

/-- `get_matching_item(bibentry, items)`: evaluates `items[0]` (IndexError on
an empty list), then compares `item.get("title")[0].casefold()` (IndexError
on an empty title list) with `bibentry["title"].casefold()` (KeyError when the
entry has no title). Returns the accepted item, or `none` after printing the
rejection diagnostics; the second component collects the arguments of the
`print` calls in order (the printed title list contributes its elements).
Exceptions are modelled as `Except.error` with the Python exception text. -/
def get_matching_item (bibentry : Entry) (items : List Item) :
    Except String (Option Item × List String) :=
  match items with
  | [] => Except.error "IndexError: list index out of range"
  | item :: _ =>
    match item.title with
    | [] => Except.error "IndexError: list index out of range"
    | t :: _ =>
      match dictFind? bibentry "title" with
      | none => Except.error "KeyError: title"
      | some bt =>
        if pyCasefold t = pyCasefold bt then
          Except.ok (some item, [])
        else
          Except.ok (none, [entryID bibentry, bt] ++
            ["  best Crossref match:"] ++ item.title ++ [item.DOI])

/-- `enrich_entry(bibentry, item)`: adds the item's DOI to the entry. When the
entry already has a doi field and it differs case-insensitively from the
item's DOI, the debug `print(i, ...)` evaluates the undefined name `i` and
raises NameError; when they agree, the entry is returned unchanged. When the
entry has no doi field, the item's DOI is stored. -/
def enrich_entry (bibentry : Entry) (item : Item) : Except String Entry :=
  let doi := item.DOI
  if dictHasKey bibentry "doi" then
    if pyLower ((dictFind? bibentry "doi").getD "") ≠ pyLower doi then
      Except.error "NameError: name i is not defined"
    else
      Except.ok bibentry
  else
    Except.ok (dictSet bibentry "doi" doi)

/-- `enrich_from_crossref(bib, email)`, with the Crossref client abstracted as
`works : title query → candidate list or error` (a network or service failure
surfaces as the error of the raised exception). For each entry in order the
title is read (KeyError when absent), the service is queried, the top
candidate is matched and, on acceptance, the entry is enriched; `okcount`
counts accepted matches. Any exception propagates and aborts the whole loop
(the source has no exception handling). Returns the processed entry list and
`okcount`. -/
def enrich_from_crossref (works : String → Except String (List Item)) :
    List Entry → Except String (List Entry × Nat)
  | [] => Except.ok ([], 0)
  | e :: rest =>
    match dictFind? e "title" with
    | none => Except.error "KeyError: title"
    | some t =>
      match works t with
      | Except.error m => Except.error m
      | Except.ok items =>
        match get_matching_item e items with
        | Except.error m => Except.error m
        | Except.ok (some item, _) =>
          match enrich_entry e item with
          | Except.error m => Except.error m
          | Except.ok e2 =>
            match enrich_from_crossref works rest with
            | Except.error m => Except.error m
            | Except.ok (rest2, n) => Except.ok (e2 :: rest2, n + 1)
        | Except.ok (none, _) =>
          match enrich_from_crossref works rest with
          | Except.error m => Except.error m
          | Except.ok (rest2, n) => Except.ok (e :: rest2, n)

/-- The key-handling stage of `__main__` (lines 160..169): read the keys,
print `len(keys)` — a TypeError when no key file was supplied, because
`get_keys` returned `None` — then `check_keys` and `filter_keys`. Returns the
filtered database together with the reported missing keys. -/
def main_key_stage (keys_file : Option (List String)) (bib : Bib) :
    Except String (Bib × List String) :=
  match get_keys keys_file with
  | none => Except.error "TypeError: object of type NoneType has no len()"
  | some keys => Except.ok (filter_keys bib keys, check_keys bib keys)

/-- Concrete sample entry keyed X1 (titled as in spec scenario B). -/
def cEntryX1 : Entry := [("ID", "X1"), ("title", "Deep Learning")]

/-- Concrete sample entry keyed X2. -/
def cEntryX2 : Entry := [("ID", "X2"), ("title", "Some Other Title")]

/-- Concrete sample entry keyed X1 that already carries a doi field. -/
def cEntryDoi : Entry := [("ID", "X1"), ("title", "Deep Learning"), ("doi", "10.1/abc")]

/-- Concrete sample database over the two sample entries, with the
key-to-entry index as built by the parser. -/
def cBibA : Bib :=
  { entries := [cEntryX1, cEntryX2]
    entries_dict := [("X1", cEntryX1), ("X2", cEntryX2)] }

/-- Concrete requested key list (spec scenario A). -/
def cKeysA : List String := ["X1", "X3"]

/-- Concrete candidate whose title equals the sample entry's title. -/
def cItemDL : Item := { title := ["Deep Learning"], DOI := "10.1/abc" }

/-- Concrete candidate whose title differs from the sample entry's title. -/
def cItemSurvey : Item := { title := ["Deep Learning: A Survey"], DOI := "10.1/xyz" }

/-- Concrete Crossref client whose every query fails with a connection error. -/
def cBadWorks : String → Except String (List Item) :=
  fun _ => Except.error "ConnectionError"

/-! ### Helper lemmas about the regex substitution -/

theorem mem_of_mem_takeWhile {l : List Char} {x : Char}
    (h : x ∈ l.takeWhile isPySpace) : x ∈ l := by
  induction l with
  | nil => simp at h
  | cons a l ih =>
    rw [List.takeWhile_cons] at h
    by_cases ha : isPySpace a
    · simp only [ha, if_pos] at h
      rcases List.mem_cons.mp h with h1 | h1
      · simp [h1]
      · exact List.mem_cons_of_mem _ (ih h1)
    · simp [ha] at h

theorem re_sub_no_nl (l : List Char) : '\n' ∉ re_newline_sub l := by
  induction l using re_newline_sub.induct with
  | case1 => simp [re_newline_sub]
  | case2 c cs h ih =>
    rw [re_newline_sub, if_pos h]
    intro hmem
    rcases List.mem_cons.mp hmem with h1 | h1
    · exact absurd h1.symm (by decide)
    · exact ih h1
  | case3 c cs h ih =>
    rw [re_newline_sub, if_neg h]
    intro hmem
    rcases List.mem_cons.mp hmem with h1 | h1
    · subst h1
      apply h
      simp [isPySpace, List.takeWhile_cons]
    · exact ih h1

theorem re_sub_id_of_no_nl (l : List Char) (hl : '\n' ∉ l) : re_newline_sub l = l := by
  induction l using re_newline_sub.induct with
  | case1 => simp [re_newline_sub]
  | case2 c cs h ih =>
    exfalso
    have h2 := ((Bool.and_eq_true _ _).mp h).2
    exact hl (mem_of_mem_takeWhile (List.elem_iff.mp h2))
  | case3 c cs h ih =>
    rw [re_newline_sub, if_neg h,
      ih (fun hm => hl (List.mem_cons_of_mem _ hm))]

theorem cleanValue_no_nl (s : String) : '\n' ∉ (cleanValue s).data :=
  re_sub_no_nl s.data

theorem cleanValue_fixed (s : String) (hs : '\n' ∉ s.data) : cleanValue s = s := by
  cases s with
  | mk d => simp only [cleanValue] at *; rw [re_sub_id_of_no_nl d hs]

theorem cleanValue_idem (s : String) : cleanValue (cleanValue s) = cleanValue s :=
  cleanValue_fixed _ (cleanValue_no_nl s)

/-! ### Helper lemmas about the dict model -/

theorem dictFind?_dictSet_same (d : List (String × String)) (k v : String) :
    dictFind? (dictSet d k v) k = some v := by
  induction d with
  | nil => simp [dictSet, dictFind?]
  | cons p rest ih =>
    by_cases hp : p.1 = k
    · simp [dictSet, hp, dictFind?]
    · simp [dictSet, hp, dictFind?, ih]

theorem dictFind?_dictSet_other (d : List (String × String)) (k v g : String)
    (hg : g ≠ k) : dictFind? (dictSet d k v) g = dictFind? d g := by
  induction d with
  | nil => simp [dictSet, dictFind?, Ne.symm hg]
  | cons p rest ih =>
    by_cases hp : p.1 = k
    · simp [dictSet, hp, dictFind?, Ne.symm hg]
    · by_cases hpg : p.1 = g
      · simp [dictSet, hp, dictFind?, hpg, hg, Ne.symm hg]
      · simp [dictSet, hp, dictFind?, hpg, hg, Ne.symm hg, ih]

theorem dictSet_eq_self (d : List (String × String)) (k v : String)
    (h : dictFind? d k = some v) : dictSet d k v = d := by
  induction d with
  | nil => simp [dictFind?] at h
  | cons p rest ih =>
    by_cases hp : p.1 = k
    · cases p with
      | mk pk pv =>
        simp only [dictFind?, if_pos hp, Option.some.injEq] at h
        simp only at hp h
        subst hp
        subst h
        simp [dictSet]
    · simp only [dictFind?, if_neg hp] at h
      simp only [dictSet, if_neg hp]
      rw [ih h]

/-! ### Helper lemmas about clean_fields -/

theorem cleanField_find_same (r : Entry) (f : String) :
    dictFind? (cleanField r f) f = (dictFind? r f).map cleanValue := by
  cases h : dictFind? r f with
  | none => simp [cleanField, h]
  | some v => simp [cleanField, h, dictFind?_dictSet_same]

theorem cleanField_find_other (r : Entry) (f g : String) (hg : g ≠ f) :
    dictFind? (cleanField r f) g = dictFind? r g := by
  cases h : dictFind? r f with
  | none => simp [cleanField, h]
  | some v => simp [cleanField, h, dictFind?_dictSet_other _ _ _ _ hg]

theorem foldl_cleanField_find_not_mem (L : List String) (r : Entry) (f : String)
    (hf : f ∉ L) : dictFind? (L.foldl cleanField r) f = dictFind? r f := by
  induction L generalizing r with
  | nil => rfl
  | cons g L ih =>
    simp only [List.foldl_cons]
    rw [ih _ (fun h => hf (List.mem_cons_of_mem _ h)),
      cleanField_find_other _ _ _
        (fun h => hf (by rw [h]; exact List.mem_cons_self _ _))]

theorem foldl_cleanField_find_mem (L : List String) (r : Entry) (f : String)
    (hnd : L.Nodup) (hf : f ∈ L) :
    dictFind? (L.foldl cleanField r) f = (dictFind? r f).map cleanValue := by
  induction L generalizing r with
  | nil => simp at hf
  | cons g L ih =>
    simp only [List.foldl_cons]
    rcases List.mem_cons.mp hf with h1 | h1
    · subst h1
      rw [foldl_cleanField_find_not_mem L _ f (List.nodup_cons.mp hnd).1,
        cleanField_find_same]
    · rw [ih _ (List.nodup_cons.mp hnd).2 h1,
        cleanField_find_other _ _ _
          (fun h => (List.nodup_cons.mp hnd).1 (by rw [← h]; exact h1))]

theorem cleanField_id_of_clean (r : Entry) (f : String)
    (h : ∀ v, dictFind? r f = some v → cleanValue v = v) : cleanField r f = r := by
  cases hv : dictFind? r f with
  | none => simp [cleanField, hv]
  | some v =>
    simp only [cleanField, hv]
    rw [h v hv]
    exact dictSet_eq_self r f v hv

theorem foldl_cleanField_id (L : List String) (r : Entry)
    (h : ∀ f ∈ L, cleanField r f = r) : L.foldl cleanField r = r := by
  induction L with
  | nil => rfl
  | cons g L ih =>
    simp only [List.foldl_cons, h g (List.mem_cons_self _ _)]
    exact ih (fun f hf => h f (List.mem_cons_of_mem _ hf))

/-- Claim C8: the Normalizer's line-break cleaning is idempotent. For every
record, applying `clean_fields` (which replaces every whitespace run
containing a line break by a single space in the fields title, author,
editor, journal, booktitle, series) twice yields the same record as applying
it once. -/
theorem clean_fields_idempotent (record : Entry) :
    clean_fields (clean_fields record) = clean_fields record := by
  show cleanedFields.foldl cleanField (clean_fields record) = clean_fields record
  apply foldl_cleanField_id
  intro f hf
  apply cleanField_id_of_clean
  intro v hv
  rw [clean_fields,
    foldl_cleanField_find_mem cleanedFields record f (by decide) hf] at hv
  cases h0 : dictFind? record f with
  | none => rw [h0] at hv; simp at hv
  | some v0 =>
    rw [h0] at hv
    simp only [Option.map_some'] at hv
    cases hv
    exact cleanValue_idem v0

/-- Claim C1 (code evaluated at the failing input): when the entry already
carries a doi that differs case-insensitively from the accepted candidate's
DOI, `enrich_entry` does not report the mismatch as a non-fatal diagnostic:
the debug print references the undefined name `i` and raises NameError, so
the enrich step fails instead of completing. When the identifiers agree
case-insensitively, the entry is returned unchanged without error. -/
theorem enrich_entry_mismatch_raises :
    enrich_entry cEntryDoi cItemSurvey =
      Except.error "NameError: name i is not defined"
    ∧ enrich_entry cEntryDoi { title := ["Deep Learning"], DOI := "10.1/ABC" } =
      Except.ok cEntryDoi := by
  constructor <;> rfl

/-- Claim C3 (code evaluated at the failing input): when the external service
returns an empty candidate list, the match step does not terminate with a
no-match outcome: `items[0]` raises IndexError, which aborts the run instead
of letting the entry proceed unenriched. -/
theorem get_matching_item_empty_raises (bibentry : Entry) :
    get_matching_item bibentry [] =
      Except.error "IndexError: list index out of range" := rfl

/-- Claim C5 (code evaluated at the failing input): when no key set is
supplied, the run does not pass the collection through unchanged: `get_keys`
returns `None`, and `len(keys)` in `__main__` raises TypeError, aborting the
run before the key-filter stage is reached. -/
theorem main_key_stage_none_raises (bib : Bib) :
    main_key_stage none bib =
      Except.error "TypeError: object of type NoneType has no len()" := rfl

/-- Claim C7: for every entry without a doi field, when the match step has
accepted a candidate, `enrich_entry` sets the entry's doi field to exactly
that candidate's DOI. -/
theorem enrich_entry_sets_doi (e : Entry) (items : List Item) (item : Item)
    (logs : List String)
    (haccept : get_matching_item e items = Except.ok (some item, logs))
    (hnodoi : dictHasKey e "doi" = false) :
    enrich_entry e item = Except.ok (dictSet e "doi" item.DOI)
    ∧ dictFind? (dictSet e "doi" item.DOI) "doi" = some item.DOI := by
  refine ⟨?_, dictFind?_dictSet_same e "doi" item.DOI⟩
  simp [enrich_entry, hnodoi]

/-- Claim C7 witness: the sample doi-less entry, whose candidate is accepted
by the match step, is enriched with exactly that candidate's DOI (spec
scenario B). -/
theorem enrich_entry_sets_doi_witness :
    enrich_entry cEntryX1 cItemDL = Except.ok (dictSet cEntryX1 "doi" cItemDL.DOI)
    ∧ dictFind? (dictSet cEntryX1 "doi" cItemDL.DOI) "doi" = some cItemDL.DOI :=
  enrich_entry_sets_doi cEntryX1 [cItemDL] cItemDL [] (by rfl) (by rfl)

/-- Claim C2: the match decision looks only at the first candidate — the
result of `get_matching_item` does not depend on the later candidates — and
accepts it exactly when the candidate's title equals the entry's title after
case folding; on rejection both titles and the rejected candidate's DOI
appear in the reported diagnostics. -/
theorem get_matching_item_first_title_only (e : Entry) (item : Item)
    (rest rest2 : List Item) (t : String) (ts : List String) (bt : String)
    (h1 : item.title = t :: ts) (h2 : dictFind? e "title" = some bt) :
    get_matching_item e (item :: rest) = get_matching_item e (item :: rest2)
    ∧ (pyCasefold t = pyCasefold bt →
        get_matching_item e (item :: rest) = Except.ok (some item, []))
    ∧ (pyCasefold t ≠ pyCasefold bt →
        ∃ logs, get_matching_item e (item :: rest) = Except.ok (none, logs)
          ∧ bt ∈ logs ∧ t ∈ logs ∧ item.DOI ∈ logs) := by
  refine ⟨rfl, ?_, ?_⟩
  · intro heq
    simp [get_matching_item, h1, h2, heq]
  · intro hne
    refine ⟨[entryID e, bt] ++ ["  best Crossref match:"] ++ item.title ++ [item.DOI],
      ?_, ?_, ?_, ?_⟩
    · simp [get_matching_item, h1, h2, hne]
    · simp
    · simp [h1]
    · simp

/-- Claim C2 witness: the sample entry's candidate list is decided on its
first candidate alone, which is accepted because the titles agree. -/
theorem get_matching_item_first_title_only_witness :
    get_matching_item cEntryX1 [cItemDL, cItemSurvey] =
      get_matching_item cEntryX1 [cItemDL]
    ∧ get_matching_item cEntryX1 [cItemDL, cItemSurvey] =
      Except.ok (some cItemDL, []) := by
  have h := get_matching_item_first_title_only cEntryX1 cItemDL [cItemSurvey] []
    "Deep Learning" [] "Deep Learning" rfl rfl
  exact ⟨h.1, h.2.1 rfl⟩

/-! ### Helper lemmas for the key filter -/

theorem dictHasKey_eq_contains_map {α : Type} (d : List (String × α)) (k : String) :
    dictHasKey d k = (d.map Prod.fst).contains k := by
  rw [Bool.eq_iff_iff]
  simp [dictHasKey, List.any_eq_true, List.elem_iff, List.mem_map]

theorem check_keys_eq (bib : Bib) (keys : List String)
    (hsync : bib.entries_dict.map Prod.fst = bib.entries.map entryID) :
    check_keys bib keys =
      keys.filter (fun k => !((bib.entries.map entryID).contains k)) := by
  unfold check_keys
  apply List.filter_congr
  intro k _
  rw [dictHasKey_eq_contains_map, hsync]

theorem nodup_subset_length_le (l keys : List String) (hnd : l.Nodup)
    (hsub : ∀ x ∈ l, x ∈ keys) : l.length ≤ keys.length := by
  calc l.length = l.toFinset.card := (List.toFinset_card_of_nodup hnd).symm
    _ ≤ keys.toFinset.card :=
      Finset.card_le_card
        (fun x hx => List.mem_toFinset.mpr (hsub x (List.mem_toFinset.mp hx)))
    _ ≤ keys.length := keys.toFinset_card_le

/-- Claim C4: the key-filter's surviving entries are a subsequence of the
input collection, of cardinality at most the minimum of the input size and
the requested-key count, and the missing keys reported by `check_keys` are
exactly the requested keys minus the keys present in the collection.
Hypotheses: the key index agrees with the entry list (the parse-time
invariant of the database, in force when `__main__` calls these functions)
and entry keys are unique (the spec's data-model assumption; duplicate keys
are declared undefined behavior). -/
theorem check_filter_keys_spec (bib : Bib) (keys : List String)
    (hsync : bib.entries_dict.map Prod.fst = bib.entries.map entryID)
    (hnodup : (bib.entries.map entryID).Nodup) :
    check_keys bib keys =
      keys.filter (fun k => !((bib.entries.map entryID).contains k))
    ∧ List.Sublist (filter_keys bib keys).entries bib.entries
    ∧ (filter_keys bib keys).entries.length ≤ min bib.entries.length keys.length := by
  refine ⟨check_keys_eq bib keys hsync, List.filter_sublist _, ?_⟩
  apply le_min
  · exact (List.filter_sublist _).length_le
  · have hsubmap : List.Sublist ((filter_keys bib keys).entries.map entryID)
        (bib.entries.map entryID) := (List.filter_sublist _).map entryID
    have h1 : ((filter_keys bib keys).entries.map entryID).Nodup :=
      List.Nodup.sublist hsubmap hnodup
    have h2 : ∀ x ∈ (filter_keys bib keys).entries.map entryID, x ∈ keys := by
      intro x hx
      rcases List.mem_map.mp hx with ⟨e, he, hex⟩
      have hc := (List.mem_filter.mp he).2
      rw [← hex]
      exact List.elem_iff.mp hc
    calc (filter_keys bib keys).entries.length
        = ((filter_keys bib keys).entries.map entryID).length :=
          (List.length_map _ _).symm
      _ ≤ keys.length := nodup_subset_length_le _ keys h1 h2

/-- Claim C4 witness: spec scenario A — two entries keyed X1 and X2, the
request asks for X1 and X3; the missing report is exactly X3 and the
filtered collection is the subsequence keeping X1. -/
theorem check_filter_keys_spec_witness :
    check_keys cBibA cKeysA =
      cKeysA.filter (fun k => !((cBibA.entries.map entryID).contains k))
    ∧ List.Sublist (filter_keys cBibA cKeysA).entries cBibA.entries
    ∧ (filter_keys cBibA cKeysA).entries.length ≤
        min cBibA.entries.length cKeysA.length :=
  check_filter_keys_spec cBibA cKeysA (by rfl) (by decide)

/-- Claim C6 counterexample: with a service client whose queries fail with a
connection error, a concrete two-entry run aborts while processing the first
entry — the error propagates, the run does not complete, and no output is
produced for the remaining entry. -/
theorem enrich_from_crossref_abort_counterexample :
    enrich_from_crossref cBadWorks [cEntryX1, cEntryX2] =
      Except.error "ConnectionError"
    ∧ (enrich_from_crossref cBadWorks [cEntryX1, cEntryX2]).toOption = none := by
  constructor <;> rfl

/-- Claim C6 amended: a failure contacting the external service while
processing one entry aborts processing of the remaining entries — the error
propagates out of `enrich_from_crossref` (which has no exception handling)
and no enriched entry list is produced. -/
theorem enrich_from_crossref_aborts (works : String → Except String (List Item))
    (e : Entry) (rest : List Entry) (t m : String)
    (ht : dictFind? e "title" = some t) (hw : works t = Except.error m) :
    enrich_from_crossref works (e :: rest) = Except.error m := by
  simp [enrich_from_crossref, ht, hw]

/-- Claim C6 amended witness: the failing client aborts a concrete one-entry
run with its connection error. -/
theorem enrich_from_crossref_aborts_witness :
    enrich_from_crossref cBadWorks [cEntryX1] = Except.error "ConnectionError" :=
  enrich_from_crossref_aborts cBadWorks cEntryX1 [] "Deep Learning"
    "ConnectionError" (by rfl) rfl

/-- Claim C9: tabular serialization first emits the header row of exactly the
requested field names in order, then one row per entry in collection order;
each data row has exactly one cell per requested field, in the requested
order, holding the entry's value for that field or the empty string when the
field is absent on the entry; the row length equals the requested-field
count, so fields of the entry outside the requested list are omitted. -/
theorem write_tsv_spec (bib : Bib) (fields : String) :
    (write_tsv bib fields).get? 0 = some (pySplit fields)
    ∧ (write_tsv bib fields).length = bib.entries.length + 1
    ∧ (∀ i e, bib.entries.get? i = some e →
        (write_tsv bib fields).get? (i + 1) =
          some ((pySplit fields).map (fun f => (dictFind? e f).getD "")))
    ∧ (∀ i e j f, bib.entries.get? i = some e → (pySplit fields).get? j = some f →
        ∃ row, (write_tsv bib fields).get? (i + 1) = some row
          ∧ row.length = (pySplit fields).length
          ∧ row.get? j = some ((dictFind? e f).getD "")) := by
  refine ⟨rfl, by simp [write_tsv], ?_, ?_⟩
  · intro i e he
    rw [List.get?_eq_getElem?] at he
    simp only [write_tsv, List.get?_eq_getElem?, List.getElem?_cons_succ,
      List.getElem?_map, he, Option.map_some']
  · intro i e j f he hf
    rw [List.get?_eq_getElem?] at he hf
    refine ⟨(pySplit fields).map (fun g => (dictFind? e g).getD ""), ?_, by simp, ?_⟩
    · simp only [write_tsv, List.get?_eq_getElem?, List.getElem?_cons_succ,
        List.getElem?_map, he, Option.map_some']
    · simp only [List.get?_eq_getElem?, List.getElem?_map, hf, Option.map_some']

/-- Claim C9 witness: in the sample database's TSV output for the field list
ID,doi the first data row is the first entry projected to those two fields. -/
theorem write_tsv_spec_witness :
    (write_tsv cBibA "ID,doi").get? (0 + 1) =
      some ((pySplit "ID,doi").map (fun f => (dictFind? cEntryX1 f).getD "")) :=
  (write_tsv_spec cBibA "ID,doi").2.2.1 0 cEntryX1 (by rfl)

/-! ### Helper lemma for the index filter -/

theorem contains_eq_false_iff (l : List String) (a : String) :
    l.contains a = false ↔ a ∉ l :=
  Bool.eq_false_iff.trans (not_congr List.elem_iff)

theorem dictHasKey_filter_not {α : Type} (d : List (String × α))
    (keys : List String) (k : String) :
    dictHasKey (d.filter (fun p => !(keys.contains p.1))) k = true ↔
      (dictHasKey d k = true ∧ k ∉ keys) := by
  simp only [dictHasKey, List.any_eq_true, List.mem_filter, decide_eq_true_eq,
    Bool.not_eq_true', contains_eq_false_iff]
  constructor
  · rintro ⟨p, ⟨hp, hnk⟩, he⟩
    refine ⟨⟨p, hp, he⟩, ?_⟩
    rw [← he]
    exact hnk
  · rintro ⟨⟨p, hp, he⟩, hnk⟩
    refine ⟨p, ⟨hp, ?_⟩, he⟩
    rw [he]
    exact hnk

/-- Claim C10: after `filter_keys` runs with a requested key set, the key
index `entries_dict` retains exactly those input keys that are not in the
requested set — every requested key present in the input is deleted from the
index — while the entries list retains exactly the entries whose key is
requested; consequently the index no longer contains the key of any
surviving entry, so the index and the entries list are inconsistent for
every surviving entry. -/
theorem filter_keys_index_inconsistent (bib : Bib) (keys : List String) :
    (∀ k, dictHasKey (filter_keys bib keys).entries_dict k = true ↔
      (dictHasKey bib.entries_dict k = true ∧ k ∉ keys))
    ∧ (∀ e, e ∈ (filter_keys bib keys).entries ↔
        (e ∈ bib.entries ∧ entryID e ∈ keys))
    ∧ (∀ e, e ∈ (filter_keys bib keys).entries →
        dictHasKey (filter_keys bib keys).entries_dict (entryID e) = false) := by
  have hk : ∀ k, dictHasKey (filter_keys bib keys).entries_dict k = true ↔
      (dictHasKey bib.entries_dict k = true ∧ k ∉ keys) :=
    fun k => dictHasKey_filter_not bib.entries_dict keys k
  have hment : ∀ e, e ∈ (filter_keys bib keys).entries ↔
      (e ∈ bib.entries ∧ entryID e ∈ keys) := by
    intro e
    simp [filter_keys, List.mem_filter, List.elem_iff]
  refine ⟨hk, hment, ?_⟩
  intro e he
  have hmemk : entryID e ∈ keys := ((hment e).mp he).2
  cases hval : dictHasKey (filter_keys bib keys).entries_dict (entryID e) with
  | false => rfl
  | true => exact absurd hmemk ((hk _).mp hval).2

/-- Claim C10 witness: in spec scenario A the entry keyed X1 survives the
filter, yet its key has been deleted from the index. -/
theorem filter_keys_index_inconsistent_witness :
    dictHasKey (filter_keys cBibA cKeysA).entries_dict (entryID cEntryX1) = false :=
  (filter_keys_index_inconsistent cBibA cKeysA).2.2 cEntryX1 (by decide)
